import Mathlib

/-
Verification of the agent response-handling layer of the SiLLM-examples
repository (`agents/agents.py`): the `ToolAgent` (JSON function-call
dispatch) and the `CodeAgent` (restricted-sandbox code execution), together
with the shared tool-registry / schema-generation facility.

The Python source is shallowly embedded: strings are Lean `String`s
(processed as `List Char`), Python dicts are association lists with
insertion-order/update-in-place semantics, `json.loads` / `json.dumps` are
modelled by an executable parser/serializer over an inductive JSON value
type (covering the null / bool / integer / string / array / object subset
that the agent layer exchanges), and Python exceptions that can escape a
function are surfaced in an `Except` result.  The regular-expression calls
in the source are all of the shape `re.findall(open ++ lazy-capture ++
close, s, re.DOTALL)`, which is implemented literally as repeated
leftmost-substring scanning.
-/

/-! ## String utilities (Python `in`, `strip`, `startswith`, `str.replace`) -/

/-- Characters removed by Python `str.strip()` with no arguments. -/
def pyIsSpace (c : Char) : Bool :=
  c = ' ' || c = '\t' || c = '\n' || c = '\r' || c = '\x0b' || c = '\x0c'

/-- Drop leading whitespace characters. -/
def dropSpaces : List Char → List Char
  | [] => []
  | c :: rest => if pyIsSpace c then dropSpaces rest else c :: rest

/-- Python `s.strip()`: remove leading and trailing whitespace. -/
def pyStrip (s : String) : String :=
  String.mk (dropSpaces ((dropSpaces s.data.reverse).reverse))

/-- `isPre pat l` holds when `pat` is a prefix of `l`. -/
def isPre : List Char → List Char → Bool
  | [], _ => true
  | _ :: _, [] => false
  | p :: ps, c :: cs => p = c && isPre ps cs

/-- Index of the leftmost occurrence of `pat` in `l`, if any. -/
def findSub (pat : List Char) : List Char → Option Nat
  | [] => if isPre pat [] then some 0 else none
  | c :: cs =>
    if isPre pat (c :: cs) then some 0
    else (findSub pat cs).map (fun n => n + 1)

/-- Python `needle in haystack` (substring containment). -/
def strContains (haystack needle : String) : Bool :=
  (findSub needle.data haystack.data).isSome

/-- Python `s.strip().startswith(pat)` uses this single-character head test
for the one-character pattern the source passes. -/
def startsWithChar (s : String) (c : Char) : Bool :=
  match s.data with
  | [] => false
  | d :: _ => d = c

/-- `re.findall(opn ++ lazy-capture ++ cls, s, re.DOTALL)`: repeatedly find
the leftmost `opn`, then the nearest following `cls`, emit the characters in
between, and resume scanning after the closing delimiter.  Fuel is the
length of the scanned text, which bounds the number of matches. -/
def extractBlocksAux (opn cls : List Char) : Nat → List Char → List (List Char)
  | 0, _ => []
  | fuel + 1, s =>
    match findSub opn s with
    | none => []
    | some i =>
      let rest := (s.drop i).drop opn.length
      match findSub cls rest with
      | none => []
      | some j =>
        rest.take j :: extractBlocksAux opn cls fuel ((rest.drop j).drop cls.length)

/-- `re.findall` for the lazy-capture patterns used by the source. -/
def reFindall (opn cls s : String) : List String :=
  (extractBlocksAux opn.data cls.data (s.data.length + 1) s.data).map String.mk

/-- The source's `response_json.replace("'", '"')`: single-quote characters
are replaced by double quotes, one character at a time. -/
def pyReplaceQuotes (s : String) : String :=
  String.mk (s.data.map (fun c => if c = Char.ofNat 39 then '"' else c))

/-- `sep.join(l)` in Python. -/
def sjoin (sep : String) : List String → String
  | [] => ""
  | s :: rest =>
    match rest with
    | [] => s
    | _ :: _ => s ++ sep ++ sjoin sep rest

/-- Python `str.replace` body for a non-empty pattern: replace leftmost
non-overlapping occurrences, scanning left to right.  Fuel is the text
length, which bounds the number of scanning steps. -/
def pyReplaceAux (pat rep : List Char) : Nat → List Char → List Char
  | 0, l => l
  | fuel + 1, l =>
    match l with
    | [] => []
    | c :: cs =>
      if isPre pat l then rep ++ pyReplaceAux pat rep fuel (l.drop pat.length)
      else c :: pyReplaceAux pat rep fuel cs

/-- Python `s.replace(pat, rep)` (the source only calls it with the
non-empty pattern `"\x7bfunctions\x7d"`). -/
def pyReplace (s pat rep : String) : String :=
  String.mk (pyReplaceAux pat.data rep.data s.data.length s.data)

/-- Python `str.splitlines` body: emit the current line at each newline;
at the end of input emit the residue only when non-empty. -/
def splitLinesAux : List Char → List Char → List String
  | cur, [] => if cur.isEmpty then [] else [String.mk cur.reverse]
  | cur, c :: cs =>
    if c = '\n' then String.mk cur.reverse :: splitLinesAux [] cs
    else splitLinesAux (c :: cur) cs

/-- Python `s.splitlines()` (over `'\n'`, the only line break the
docstrings in scope contain). -/
def pySplitLines (s : String) : List String := splitLinesAux [] s.data

/-- Decimal digits of a natural number (fuel-based so it reduces). -/
def natDigitsAux : Nat → Nat → List Char
  | 0, _ => []
  | fuel + 1, n =>
    if n < 10 then [Nat.digitChar n]
    else natDigitsAux fuel (n / 10) ++ [Nat.digitChar (n % 10)]

/-- Python `str()` / `json.dumps` rendering of an integer. -/
def intRepr : Int → String
  | .ofNat m => String.mk (natDigitsAux (m + 1) m)
  | .negSucc m => "-" ++ String.mk (natDigitsAux (m + 2) (m + 1))

/-! ## JSON values, `json.loads`, `json.dumps` -/

/-- JSON values as produced by `json.loads` on the subset the agent layer
exchanges (integers stand in for JSON numbers; the agent code never relies
on fractional numbers). -/
inductive JValue where
  | jnull
  | jbool (b : Bool)
  | jint (n : Int)
  | jstr (s : String)
  | jarr (elems : List JValue)
  | jobj (fields : List (String × JValue))
deriving Inhabited

/-- Python-dict insert: update the value in place if the key is present
(keeping the key's original position), otherwise append. -/
def dictInsert {α : Type} (d : List (String × α)) (k : String) (v : α) :
    List (String × α) :=
  match d with
  | [] => [(k, v)]
  | kv :: rest =>
    if kv.1 = k then (k, v) :: rest else kv :: dictInsert rest k v

/-- Python-dict lookup. -/
def lookupD {α : Type} (d : List (String × α)) (k : String) : Option α :=
  match d with
  | [] => none
  | kv :: rest => if kv.1 = k then some kv.2 else lookupD rest k

/-- Build a Python dict from a sequence of key-value pairs (first insertion
fixes position, last insertion fixes value). -/
def pyDict {α : Type} (l : List (String × α)) : List (String × α) :=
  l.foldl (fun d kv => dictInsert d kv.1 kv.2) []

/-- Whitespace skipped by the JSON grammar. -/
def jsonSkipWs : List Char → List Char
  | [] => []
  | c :: rest =>
    if c = ' ' || c = '\t' || c = '\n' || c = '\r' then jsonSkipWs rest
    else c :: rest

/-- Decode one JSON string-escape character. -/
def jsonUnescape (e : Char) : Option Char :=
  if e = '"' then some '"'
  else if e = '\\' then some '\\'
  else if e = '/' then some '/'
  else if e = 'n' then some '\n'
  else if e = 't' then some '\t'
  else if e = 'r' then some '\r'
  else if e = 'b' then some '\x08'
  else if e = 'f' then some '\x0c'
  else none

/-- Parse the body of a JSON string after the opening quote; returns the
decoded string and the remaining input. -/
def parseJStr : Nat → List Char → Option (String × List Char)
  | 0, _ => none
  | _ + 1, [] => none
  | fuel + 1, c :: cs =>
    if c = '"' then some ("", cs)
    else if c = '\\' then
      match cs with
      | [] => none
      | e :: cs2 =>
        match jsonUnescape e with
        | none => none
        | some d =>
          match parseJStr fuel cs2 with
          | none => none
          | some (s, r) => some (String.mk (d :: s.data), r)
    else if c.toNat < 32 then none
    else
      match parseJStr fuel cs with
      | none => none
      | some (s, r) => some (String.mk (c :: s.data), r)

/-- Digits of non-negative decimal literal. -/
def parseDigits : List Char → Option (Nat × List Char)
  | l =>
    let ds := l.takeWhile Char.isDigit
    if ds.isEmpty then none
    else some (ds.foldl (fun n c => 10 * n + (c.toNat - 48)) 0, l.drop ds.length)

mutual

/-- Parse one JSON value (recursive descent over the agent-layer subset). -/
def parseJVal : Nat → List Char → Option (JValue × List Char)
  | 0, _ => none
  | fuel + 1, l =>
    match jsonSkipWs l with
    | [] => none
    | c :: cs =>
      if c = '"' then
        match parseJStr (cs.length + 1) cs with
        | none => none
        | some (s, r) => some (.jstr s, r)
      else if c = '\x7b' then parseJObj fuel cs
      else if c = '[' then parseJArr fuel cs
      else if c = '-' then
        match parseDigits cs with
        | none => none
        | some (n, r) => some (.jint (-(n : Int)), r)
      else if c.isDigit then
        match parseDigits (c :: cs) with
        | none => none
        | some (n, r) => some (.jint (n : Int), r)
      else if isPre "true".data (c :: cs) then some (.jbool true, (c :: cs).drop 4)
      else if isPre "false".data (c :: cs) then some (.jbool false, (c :: cs).drop 5)
      else if isPre "null".data (c :: cs) then some (.jnull, (c :: cs).drop 4)
      else none

/-- Parse the fields of a JSON object after the opening brace (duplicate
keys follow dict semantics: last value wins). -/
def parseJObj : Nat → List Char → Option (JValue × List Char)
  | 0, _ => none
  | fuel + 1, l =>
    match jsonSkipWs l with
    | [] => none
    | c :: cs =>
      if c = '\x7d' then some (.jobj [], cs)
      else parseJObjFields fuel [] (c :: cs)

/-- Parse `"key": value (, "key": value)* \x7d`. -/
def parseJObjFields : Nat → List (String × JValue) → List Char →
    Option (JValue × List Char)
  | 0, _, _ => none
  | fuel + 1, acc, l =>
    match jsonSkipWs l with
    | [] => none
    | c :: cs =>
      if c = '"' then
        match parseJStr (cs.length + 1) cs with
        | none => none
        | some (k, r1) =>
          match jsonSkipWs r1 with
          | ':' :: r2 =>
            match parseJVal fuel r2 with
            | none => none
            | some (v, r3) =>
              let acc2 := dictInsert acc k v
              match jsonSkipWs r3 with
              | ',' :: r4 => parseJObjFields fuel acc2 r4
              | '\x7d' :: r4 => some (.jobj acc2, r4)
              | _ => none
          | _ => none
      else none

/-- Parse the elements of a JSON array after the opening bracket. -/
def parseJArr : Nat → List Char → Option (JValue × List Char)
  | 0, _ => none
  | fuel + 1, l =>
    match jsonSkipWs l with
    | [] => none
    | c :: cs =>
      if c = ']' then some (.jarr [], cs)
      else parseJArrElems fuel [] (c :: cs)

/-- Parse `value (, value)* ]`. -/
def parseJArrElems : Nat → List JValue → List Char → Option (JValue × List Char)
  | 0, _, _ => none
  | fuel + 1, acc, l =>
    match parseJVal fuel l with
    | none => none
    | some (v, r) =>
      match jsonSkipWs r with
      | ',' :: r2 => parseJArrElems fuel (acc ++ [v]) r2
      | ']' :: r2 => some (.jarr (acc ++ [v]), r2)
      | _ => none

end

/-- `json.loads`: parse a complete JSON document (entire input consumed). -/
def jsonLoads (s : String) : Option JValue :=
  match parseJVal (4 * (s.data.length + 1)) s.data with
  | none => none
  | some (v, rest) =>
    match jsonSkipWs rest with
    | [] => some v
    | _ :: _ => none

/-- Render one character of a JSON string per `json.dumps`. -/
def escapeJsonChar (c : Char) : String :=
  if c = '"' then "\\\""
  else if c = '\\' then "\\\\"
  else if c = '\n' then "\\n"
  else if c = '\t' then "\\t"
  else if c = '\r' then "\\r"
  else if c = '\x08' then "\\b"
  else if c = '\x0c' then "\\f"
  else if c.toNat < 32 then
    "\\u00" ++ String.mk [Nat.digitChar (c.toNat / 16), Nat.digitChar (c.toNat % 16)]
  else String.singleton c

/-- `json.dumps` of a string. -/
def jsonDumpStr (s : String) : String :=
  "\"" ++ String.join (s.data.map escapeJsonChar) ++ "\""

/-- CPython's default recursion limit, which bounds the nesting depth both
`json.dumps` and evaluation of nested expressions can handle before raising
`RecursionError`. -/
def pyRecursionLimit : Nat := 1000

/-- Map a fallible function over a list, failing if any element fails. -/
def mapOpt {α β : Type} (f : α → Option β) : List α → Option (List β)
  | [] => some []
  | x :: xs =>
    match f x with
    | none => none
    | some y =>
      match mapOpt f xs with
      | none => none
      | some ys => some (y :: ys)

/-- Depth-bounded serializer body (`none` = `RecursionError`, which in
CPython escapes `json.dumps` once the value nests deeper than the recursion
limit). -/
def jsonDumpsF : Nat → JValue → Option String
  | 0, _ => none
  | fuel + 1, v =>
    match v with
    | .jnull => some "null"
    | .jbool true => some "true"
    | .jbool false => some "false"
    | .jint n => some (intRepr n)
    | .jstr s => some (jsonDumpStr s)
    | .jarr xs =>
      match mapOpt (fun x => jsonDumpsF fuel x) xs with
      | none => none
      | some ss => some ("[" ++ sjoin ", " ss ++ "]")
    | .jobj kvs =>
      match mapOpt (fun kv => (jsonDumpsF fuel kv.2).map
          (fun s => jsonDumpStr kv.1 ++ ": " ++ s)) kvs with
      | none => none
      | some ss => some ("\x7b" ++ sjoin ", " ss ++ "\x7d")

/-- `json.dumps` with default separators (`", "` and `": "`); `none` means
the call raised (`RecursionError` on over-deep nesting). -/
def jsonDumps (v : JValue) : Option String := jsonDumpsF pyRecursionLimit v

/-! ## Python runtime values and exceptions -/

/-- Python exceptions that the agent layer can observe or leak. -/
inductive PyErr where
  | indexError
  | attributeError (msg : String)
  | nameError (x : String)
  | typeError (msg : String)
deriving DecidableEq

/-- Rendering of `str(e)` used by `f"Error: {e}"` in the sandbox handler
(message text approximates CPython's, which quotes the offending name). -/
def errStr : PyErr → String
  | .indexError => "list index out of range"
  | .attributeError m => m
  | .nameError x => "name " ++ x ++ " is not defined"
  | .typeError m => m

/-- A Python value as seen by the dispatch layer: either data that
`json.dumps` accepts, or a value it rejects (an object, function, set, ...)
identified only by a tag. -/
inductive PyValue where
  | ofJson (j : JValue)
  | nonSerializable (tag : String)

/-- `json.dumps(result)` on a tool-call result: fails exactly on
non-serializable values. -/
def pyDumps : PyValue → Option String
  | .ofJson j => jsonDumps j
  | .nonSerializable _ => none

/-- Python `str()` of a parsed-JSON value (containers are approximated by
their JSON rendering; the agent layer only ever formats strings, numbers
and booleans this way). -/
def jsonPyStr : JValue → String
  | .jnull => "None"
  | .jbool true => "True"
  | .jbool false => "False"
  | .jint n => intRepr n
  | .jstr s => s
  | .jarr xs => (jsonDumps (.jarr xs)).getD "..."
  | .jobj kvs => (jsonDumps (.jobj kvs)).getD "..."

/-- Python `str()` of a runtime value. -/
def pyStr : PyValue → String
  | .ofJson j => jsonPyStr j
  | .nonSerializable t => "<" ++ t ++ ">"

/-! ## Tool functions

Lean cannot introspect functions the way `inspect.signature` does, so a
registered tool is embedded as the explicit descriptor that introspection
would recover (as the spec's design notes prescribe for targets without
reflection): declared name, parameter metadata, docstring, and the two ways
the agent layer invokes it (keyword expansion `func(**params)` for the JSON
dispatcher, positional call for sandboxed code). -/

/-- Metadata of one declared parameter. -/
structure PyParam where
  name : String
  /-- `__name__` of the annotation (or of `Annotated`'s first argument). -/
  typeName : String
  /-- Second argument of `typing.Annotated`, when the annotation has one. -/
  description : Option String
  /-- Whether the parameter declares a default value. -/
  hasDefault : Bool
  /-- Rendered default value (meaningful only when `hasDefault`). -/
  defaultRepr : String

/-- A registered tool function. -/
structure PyFunc where
  /-- `func.__name__`. -/
  name : String
  params : List PyParam
  /-- `inspect.getdoc(func)`. -/
  docstring : Option String
  /-- `func(**kwargs)`; an `Except.error` is a raised exception. -/
  callKw : List (String × JValue) → Except PyErr PyValue
  /-- `func(arg, ...)` with positional arguments, as sandboxed code calls it. -/
  callPos : List PyValue → Except PyErr PyValue

/-! ## Schema generation (`json_function_stub`) -/

/-- The per-parameter entry placed in the schema's `properties` object. -/
def paramEntry (p : PyParam) : JValue :=
  match p.description with
  | some d => .jobj [("type", .jstr p.typeName), ("description", .jstr d)]
  | none => .jobj [("type", .jstr p.typeName)]

/-- `json_function_stub(name, func)`: the structured JSON schema for one
registry entry. -/
def json_function_stub (name : String) (func : PyFunc) : JValue :=
  .jobj [("type", .jstr "function"),
         ("function", .jobj
           [("name", .jstr name),
            ("description", .jstr (func.docstring.getD "")),
            ("parameters", .jobj
              [("type", .jstr "object"),
               ("properties", .jobj (func.params.map (fun p => (p.name, paramEntry p)))),
               ("required", .jarr
                 (((func.params.filter (fun p => !p.hasDefault)).map
                   (fun p => .jstr p.name))))])])]

/-! ## ToolAgent (JSON dispatch strategy) -/

/-- The state built by `ToolAgent.__init__`. -/
structure ToolAgent where
  tool_functions : List (String × PyFunc)
  tools : List JValue

/-- `{func.__name__: func for func in tool_functions}` — the list-to-dict
normalization shared by both agent constructors. -/
def registryOf : List PyFunc ⊕ List (String × PyFunc) → List (String × PyFunc)
  | .inl fs => pyDict (fs.map (fun f => (f.name, f)))
  | .inr d => d

/-- `ToolAgent.__init__`: accept a list or a dict of tool functions and
derive the JSON schema list. -/
def mkToolAgent (arg : List PyFunc ⊕ List (String × PyFunc)) : ToolAgent :=
  let tf := registryOf arg
  { tool_functions := tf
    tools := tf.map (fun kv => json_function_stub kv.1 kv.2) }

/-- Result of the extraction stage of `ToolAgent.handle_response`
(source lines 75-84). -/
inductive Extracted where
  /-- No recognized wire format: the handler returns `None`. -/
  | noPayload
  /-- Delimiters are present but `re.findall(...)` is empty, so the `[0]`
  subscript raises `IndexError`. -/
  | raised
  /-- The extracted (and, for fenced blocks, quote-normalized) JSON text. -/
  | payload (s : String)
deriving DecidableEq

/-- Extraction stage of `ToolAgent.handle_response`: tagged region first,
then generic fenced block (with single-to-double quote normalization), then
bare leading-brace text. -/
def extractToolPayload (response : String) : Extracted :=
  if strContains response "<tool_call>" && strContains response "</tool_call>" then
    match reFindall "<tool_call>" "</tool_call>" response with
    | [] => .raised
    | s :: _ => .payload s
  else if strContains response "```" then
    match reFindall "```" "```" response with
    | [] => .raised
    | s :: _ => .payload (pyReplaceQuotes s)
  else if startsWithChar (pyStrip response) '\x7b' then .payload (pyStrip response)
  else .noPayload

/-- `function_calls` normalization: a single object becomes a singleton
batch (source lines 91-92). -/
def asCallList : JValue → List JValue
  | .jarr xs => xs
  | v => [v]

/-- `self.tool_functions.get(name, None)` on a hashable key: the registry
is keyed by strings, so only a string name can resolve. -/
def resolveName (reg : List (String × PyFunc)) : JValue → Option PyFunc
  | .jstr s => lookupD reg s
  | _ => none

/-- Parameter extraction, invocation, and result serialization for a
resolved function (source lines 103-118). -/
def invokeResolved (func : PyFunc) (fields : List (String × JValue)) :
    Except PyErr (String ⊕ String) :=
  let params? : Option JValue :=
    match lookupD fields "parameters" with
    | some p => some p
    | none => lookupD fields "arguments"
  match params? with
  | none => .ok (.inl "Error: missing parameters in function call.")
  | some params =>
    let callResult : Except PyErr PyValue :=
      match params with
      | .jobj kvs => func.callKw kvs
      | _ => .error (.typeError "argument after ** must be a mapping")
    match callResult with
    | .error _ => .ok (.inl "Error: function call failed")
    | .ok result =>
      match pyDumps result with
      | none =>
        .ok (.inl "Error: function call did not return JSON serializable result.")
      | some s => .ok (.inr s)

/-- Processing of one batch element (source lines 96-118): either a raised
exception (`.error`), an error feedback string (`.ok (.inl _)`), or the
serialized result (`.ok (.inr _)`).  A `name` value that is a JSON array
or object becomes a Python list or dict, and hashing it in
`tool_functions.get(name, None)` raises an uncaught `TypeError`. -/
def elemOutcome (reg : List (String × PyFunc)) (fc : JValue) :
    Except PyErr (String ⊕ String) :=
  match fc with
  | .jobj fields =>
    -- function_call.get("name", None): a JSON null is Python None as well
    let nameVal : Option JValue :=
      match lookupD fields "name" with
      | none => none
      | some .jnull => none
      | some v => some v
    match nameVal with
    | none => .ok (.inl "Error: missing function name in function call.")
    | some nameV =>
      match nameV with
      | .jarr _ => .error (.typeError "unhashable type: \x27list\x27")
      | .jobj _ => .error (.typeError "unhashable type: \x27dict\x27")
      | _ =>
        match resolveName reg nameV with
        | none => .ok (.inl ("Error: unknown function " ++ jsonPyStr nameV ++ "."))
        | some func => invokeResolved func fields
  | _ =>
    -- function_call.get(...) on a non-dict raises AttributeError, uncaught
    .error (.attributeError "object has no attribute get")

/-- The dispatch loop (source lines 94-120): accumulate serialized results
plus newlines; the first failing element's error string is returned alone. -/
def processCalls (reg : List (String × PyFunc)) :
    List JValue → String → Except PyErr (Option String)
  | [], acc => .ok (some acc)
  | fc :: rest, acc =>
    match elemOutcome reg fc with
    | .error e => .error e
    | .ok (.inl err) => .ok (some err)
    | .ok (.inr d) => processCalls reg rest (acc ++ d ++ "\n")

/-- `ToolAgent.handle_response`.  The result is `.error e` when the Python
code would let exception `e` escape to the caller, and `.ok r` when it
returns `r` (`none` = Python `None`). -/
def ToolAgent.handle_response (a : ToolAgent) (response : String) :
    Except PyErr (Option String) :=
  match extractToolPayload response with
  | .noPayload => .ok none
  | .raised => .error .indexError
  | .payload s =>
    match jsonLoads s with
    | none => .ok (some "Error: invalid JSON format.")
    | some v => processCalls a.tool_functions (asCallList v) ""

/-! ## CodeAgent (sandboxed code strategy)

`compile_restricted_exec` and `exec` belong to RestrictedPython / the
Python runtime, not to this repository.  Following the spec's design notes,
the restricted code that can actually run is embedded as a small
statement/expression language (variable binding, calls to registered
functions, `print`), and the external compiler is a parameter of
`CodeAgent.handle_response` producing either such a block or a list of
diagnostics — exactly the `compiled.code` / `compiled.errors` interface the
source consumes.  The transformed `print` writes through a collector bound
to the reserved local name `_print`; RestrictedPython rejects assignments
to underscore-prefixed names at compile time, so in any state reachable
through its output the `_print` slot holds only the collector, which the
local environment records in a dedicated field. -/

/-- An entry of `sandbox_globals`. -/
inductive GVal where
  /-- A registered tool function. -/
  | tool (f : PyFunc)
  /-- `_print_` (the `PrintCollector` class). -/
  | printFactory
  /-- `_getitem_` (`operator.getitem`). -/
  | getitemPrim
  /-- An entry inherited from RestrictedPython's `safe_globals`. -/
  | builtin (name : String)

/-- RestrictedPython's `safe_globals`: a dict holding `__builtins__`. -/
def safe_globals : List (String × GVal) :=
  [("__builtins__", GVal.builtin "safe_builtins")]

/-- The persistent `sandbox_locals` of one session: ordinary variable
bindings plus the `_print` collector slot (`none` = binding absent,
`some txt` = collector holding captured output `txt`). -/
structure SLocals where
  vars : List (String × PyValue)
  printCol : Option String
deriving Inhabited

/-- Freshly-reset locals. -/
def emptySLocals : SLocals := { vars := [], printCol := none }

/-- Expressions of the restricted block language. -/
inductive SExpr where
  | lit (v : PyValue)
  | var (x : String)
  | call (fname : String) (args : List SExpr)

/-- Statements of the restricted block language. -/
inductive SStmt where
  | assign (x : String) (e : SExpr)
  | printE (e : SExpr)
  | exprS (e : SExpr)

/-- Evaluate a list of expressions left to right with a given evaluator. -/
def evalArgsWith (ev : SExpr → Except PyErr PyValue) :
    List SExpr → Except PyErr (List PyValue)
  | [] => .ok []
  | e :: rest =>
    match ev e with
    | .error err => .error err
    | .ok v =>
      match evalArgsWith ev rest with
      | .error err => .error err
      | .ok vs => .ok (v :: vs)

/-- Depth-bounded expression evaluator (name resolution: locals, then
globals, else `NameError`).  Expression nesting beyond CPython's recursion
limit raises `RecursionError`, modelled by the fuel-exhaustion branch. -/
def evalExprF (g : List (String × GVal)) (loc : SLocals) :
    Nat → SExpr → Except PyErr PyValue
  | 0, _ => .error (.typeError "maximum recursion depth exceeded")
  | fuel + 1, e =>
    match e with
    | .lit v => .ok v
    | .var x =>
      match lookupD loc.vars x with
      | some v => .ok v
      | none =>
        match lookupD g x with
        | some (.tool f) => .ok (.nonSerializable ("function " ++ f.name))
        | some _ => .ok (.nonSerializable "builtin")
        | none => .error (.nameError x)
    | .call fname args =>
      match evalArgsWith (fun a => evalExprF g loc fuel a) args with
      | .error e => .error e
      | .ok vs =>
        match lookupD loc.vars fname with
        | some _ => .error (.typeError "object is not callable")
        | none =>
          match lookupD g fname with
          | some (.tool f) => f.callPos vs
          | some _ => .error (.typeError "object is not callable")
          | none => .error (.nameError fname)

/-- Evaluate an expression against the sandbox globals and session locals. -/
def evalExpr (g : List (String × GVal)) (loc : SLocals) (e : SExpr) :
    Except PyErr PyValue :=
  evalExprF g loc pyRecursionLimit e

/-- Execute one statement; `print` appends `str(value)` plus a newline to
the collector, creating the `_print` binding on first use. -/
def execStmt (g : List (String × GVal)) (st : SStmt) (loc : SLocals) :
    SLocals × Option PyErr :=
  match st with
  | .assign x e =>
    match evalExpr g loc e with
    | .ok v => ({ loc with vars := dictInsert loc.vars x v }, none)
    | .error err => (loc, some err)
  | .printE e =>
    match evalExpr g loc e with
    | .ok v =>
      ({ loc with printCol := some ((loc.printCol.getD "") ++ pyStr v ++ "\n") }, none)
    | .error err => (loc, some err)
  | .exprS e =>
    match evalExpr g loc e with
    | .ok _ => (loc, none)
    | .error err => (loc, some err)

/-- `exec(compiled.code, sandbox_globals, sandbox_locals)`: statements run
in order; a raised exception stops the block but keeps the bindings already
made (the dict is mutated in place). -/
def execBlock (g : List (String × GVal)) :
    List SStmt → SLocals → SLocals × Option PyErr
  | [], loc => (loc, none)
  | st :: rest, loc =>
    match execStmt g st loc with
    | (loc', none) => execBlock g rest loc'
    | (loc', some e) => (loc', some e)

/-- The `compile_restricted_exec` result interface the source consumes. -/
structure CompileResult where
  code : Option (List SStmt)
  errors : List String

/-- The state built by `CodeAgent.__init__`. -/
structure CodeAgent where
  tool_functions : List (String × PyFunc)
  sandbox_globals : List (String × GVal)
  sandbox_locals : SLocals

/-- `CodeAgent.reset`: clear the persistent local bindings only. -/
def CodeAgent.reset (ca : CodeAgent) : CodeAgent :=
  { ca with sandbox_locals := emptySLocals }

/-- `CodeAgent.__init__`: normalize the registry, build the sandbox globals
(`safe_globals` + tools + `_print_` + `_getitem_`), and reset. -/
def mkCodeAgent (arg : List PyFunc ⊕ List (String × PyFunc)) : CodeAgent :=
  let tf := registryOf arg
  let g1 := (tf.map (fun kv => (kv.1, GVal.tool kv.2))).foldl
    (fun d kv => dictInsert d kv.1 kv.2) safe_globals
  let g2 := dictInsert g1 "_print_" GVal.printFactory
  let g3 := dictInsert g2 "_getitem_" GVal.getitemPrim
  { tool_functions := tf, sandbox_globals := g3, sandbox_locals := emptySLocals }

/-! ## Stub generation (pseudo-source form) and prompt formatting -/

/-- Rendering of a parameter's annotation inside `str(inspect.signature)`
(`Annotated[T, \x27text\x27]` when a description is attached). -/
def renderAnnotation (p : PyParam) : String :=
  match p.description with
  | some d => "Annotated[" ++ p.typeName ++ ", \x27" ++ d ++ "\x27]"
  | none => p.typeName

/-- Rendering of one declared parameter inside `str(inspect.signature)`. -/
def renderParam (p : PyParam) : String :=
  p.name ++ ": " ++ renderAnnotation p ++
    (if p.hasDefault then " = " ++ p.defaultRepr else "")

/-- `code_function_stub(func)`: pseudo-source stub with signature,
doc-comment block (when the docstring is non-empty) and a `pass` body. -/
def code_function_stub (func : PyFunc) : String :=
  let signature := "(" ++ sjoin ", " (func.params.map renderParam) ++ ")"
  let header := "def " ++ func.name ++ signature ++ ":\n"
  let header :=
    match func.docstring with
    | some d =>
      if d = "" then header
      else
        header ++ "    \"\"\"\n" ++
          String.join ((pySplitLines d).map (fun line => "    " ++ line ++ "\n")) ++
          "    \"\"\"\n"
    | none => header
  header ++ "    pass"

/-- The module-level `default_code_system_prompt` template. -/
def default_code_system_prompt : String :=
  "You are a Python coding expert and ReAct agent that acts by writing executable code.\nAt each step I will execute the code that you wrote and send you the execution result.\nThen continue with the next step by reasoning and writing executable code until you have a final answer.\nThe final answer must be in plain text or markdown (exclude code and exclude latex).\n\nYou can use the following available functions:\n{functions}\n\nThink step by step and provide your reasoning, outside of the function calls.\nYou can write Python code but ONLY using the available functions. Use the print function to return the execution result for each step. You MUST NOT use imports or external libraries.\n\nProvide all your python code in a SINGLE markdown code block like the following:\n```python\nvar1 = example_function(arg1, \"string\")\nresult = example_function2(var1, arg2)\nprint(result)\n```\n\nRemember to only execute code for one step at a time and wait for the execution result to inspect the return values. All python markdown code you provide in your responses will be executed in order."

/-- The fenced tool block substituted for the placeholder. -/
def toolBlock (tf : List (String × PyFunc)) : String :=
  "```python\n" ++ sjoin "\n\n" (tf.map (fun kv => code_function_stub kv.2)) ++ "\n```"

/-- `CodeAgent.format_system_prompt`: substitute the tool block for the
`\x7bfunctions\x7d` placeholder; a template without the placeholder raises
`ValueError` (surfaced as `.error`). -/
def CodeAgent.format_system_prompt (ca : CodeAgent) (prompt : Option String) :
    Except String String :=
  let prompt := prompt.getD default_code_system_prompt
  let tool_block := toolBlock ca.tool_functions
  if !(strContains prompt "{functions}") then
    .error "Prompt does not contain {functions} placeholder"
  else
    .ok (pyReplace prompt "{functions}" tool_block)

/-- `CodeAgent.handle_response`, parameterized by the external restricted
compiler.  Returns the feedback (`none` = Python `None`) together with the
post-call agent state. -/
def CodeAgent.handle_response (compile : String → CompileResult)
    (ca : CodeAgent) (response : String) : Option String × CodeAgent :=
  if strContains response "```" then
    if !(strContains response "```python") then
      (some "Error: code block must be formatted as ```python ... ```", ca)
    else
      match reFindall "```python" "```" response with
      | [] => (none, ca)
      | [code_block] =>
        let compiled := compile code_block
        match compiled.code with
        | none => (some ("Compilation errors:\n" ++ sjoin "\n" compiled.errors), ca)
        | some blk =>
          match execBlock ca.sandbox_globals blk ca.sandbox_locals with
          | (loc', some e) =>
            (some ("Error: " ++ errStr e), { ca with sandbox_locals := loc' })
          | (loc', none) =>
            match loc'.printCol with
            | some txt =>
              let printed := pyStrip txt
              let loc2 := { loc' with printCol := none }
              if printed.length > 0 then (some printed, { ca with sandbox_locals := loc2 })
              else (some "Error: result string is empty.", { ca with sandbox_locals := loc2 })
            | none =>
              (some "Error: No print statement executed in code block.",
               { ca with sandbox_locals := loc' })
      | _ :: _ :: _ => (some "Error: multiple code blocks found", ca)
  else (none, ca)

/-! ## Derived predicates and shared concrete fixtures -/

/-- `s` starts with prefix `pre`. -/
def strStartsWith (s pre : String) : Bool := isPre pre.data s.data

/-- Whether a parsed batch element is a JSON object. -/
def isJObjB : JValue → Bool
  | .jobj _ => true
  | _ => false

/-- Every element of the call batch that `ToolAgent.handle_response` would
dispatch for this response is a JSON object (vacuously true when no payload
is extracted or the payload does not parse). -/
def batchAllObjects (response : String) : Bool :=
  match extractToolPayload response with
  | .payload s =>
    match jsonLoads s with
    | some v => (asCallList v).all isJObjB
    | none => true
  | _ => true

/-- The element's `name` value, when present and non-null, is hashable:
JSON arrays and objects (Python lists and dicts) are the unhashable cases
that make `tool_functions.get(name, None)` raise. -/
def hashableName : JValue → Bool
  | .jobj fields =>
    match lookupD fields "name" with
    | some (.jarr _) => false
    | some (.jobj _) => false
    | _ => true
  | _ => true

/-- Every element of the call batch that `ToolAgent.handle_response` would
dispatch for this response carries a hashable `name` value (vacuously true
when no payload is extracted or the payload does not parse). -/
def batchNamesHashable (response : String) : Bool :=
  match extractToolPayload response with
  | .payload s =>
    match jsonLoads s with
    | some v => (asCallList v).all hashableName
    | none => true
  | _ => true

/-- A sample registered tool: accepts `x=1` keyword arguments or no
arguments, and is callable positionally from sandbox code. -/
def sampleF : PyFunc :=
  { name := "f"
    params := [{ name := "x", typeName := "int", description := some "an input"
                 hasDefault := false, defaultRepr := "" }]
    docstring := some "Sample tool."
    callKw := fun kvs =>
      match kvs with
      | [("x", JValue.jint 1)] => .ok (.ofJson (.jobj [("y", .jint 2)]))
      | [] => .ok (.ofJson (.jstr "ran"))
      | _ => .error (.typeError "unexpected keyword argument")
    callPos := fun _ => .ok (.ofJson (.jstr "ok")) }

/-- A sample tool whose result `json.dumps` rejects. -/
def sampleG : PyFunc :=
  { name := "g"
    params := []
    docstring := none
    callKw := fun _ => .ok (.nonSerializable "object")
    callPos := fun _ => .ok (.nonSerializable "object") }

/-- A second well-behaved sample tool (distinct name from `sampleF`). -/
def sampleH : PyFunc :=
  { name := "h"
    params := []
    docstring := some "Second sample tool."
    callKw := fun _ => .ok (.ofJson .jnull)
    callPos := fun _ => .ok (.ofJson .jnull) }

/-- A `ToolAgent` over the registry `\x7b"f": sampleF\x7d`. -/
def sampleToolAgent : ToolAgent := mkToolAgent (.inr [("f", sampleF)])

/-- A `CodeAgent` over the tool list `[sampleF]`. -/
def sampleCodeAgent : CodeAgent := mkCodeAgent (.inl [sampleF])

/-- A compiler stub standing for `compile_restricted_exec` on the sample
block `print(f())`. -/
def sampleCompile : String → CompileResult :=
  fun _ => { code := some [SStmt.printE (.call "f" [])], errors := [] }

/-- The bare single-descriptor response of the single-call test. -/
def singleCallResponse : String :=
  "\x7b\"name\": \"f\", \"arguments\": \x7b\"x\": 1\x7d\x7d"

/-- A JSON call descriptor that is valid JSON and carries an apostrophe
inside a string value. -/
def apostropheBlock : String :=
  "\x7b\"name\": \"f\", \"parameters\": \x7b\"note\": \"it" ++
    String.singleton (Char.ofNat 39) ++ "s\"\x7d\x7d"

/-- The apostrophe-bearing descriptor wrapped in a generic fenced block. -/
def apostropheResponse : String := "```" ++ apostropheBlock ++ "```"

/-- The two-element batch used by the all-or-nothing test: a successful
call to `f` followed by a call to the unregistered name `missing`. -/
def batchResponse : String :=
  "<tool_call>[\x7b\"name\":\"f\",\"parameters\":\x7b\x7d\x7d,\x7b\"name\":\"missing\",\"parameters\":\x7b\x7d\x7d]</tool_call>"

/-- A compiler stub standing for `compile_restricted_exec` on the
assignment block `v = 3`. -/
def assignCompile : String → CompileResult :=
  fun _ => { code := some [SStmt.assign "v" (.lit (.ofJson (.jint 3)))], errors := [] }

/-- A session state in which an earlier turn bound the variable `v`. -/
def sampleSession : CodeAgent :=
  (CodeAgent.handle_response assignCompile sampleCodeAgent "```python\nv = 3\n```").2

/-! ## Theorems -/

/-- C6: a response with no call-delimiter tags, no fenced region, and no
leading brace after trimming yields `None` from both strategies. -/
theorem plain_text_yields_none (a : ToolAgent) (compile : String → CompileResult)
    (ca : CodeAgent) (response : String)
    (h1 : strContains response "<tool_call>" = false)
    (h2 : strContains response "</tool_call>" = false)
    (h3 : strContains response "```" = false)
    (h4 : startsWithChar (pyStrip response) '\x7b' = false) :
    ToolAgent.handle_response a response = .ok none ∧
    CodeAgent.handle_response compile ca response = (none, ca) := by
  constructor
  · simp [ToolAgent.handle_response, extractToolPayload, h1, h2, h3, h4]
  · simp [CodeAgent.handle_response, h3]

/-- C6 witness: a plain conversational response produces `None` in both
strategies. -/
theorem plain_text_yields_none_witness :
    ToolAgent.handle_response sampleToolAgent "The answer is 4." = .ok none ∧
    CodeAgent.handle_response sampleCompile sampleCodeAgent "The answer is 4." =
      (none, sampleCodeAgent) :=
  plain_text_yields_none sampleToolAgent sampleCompile sampleCodeAgent
    "The answer is 4." (by decide) (by decide) (by decide) (by decide)

/-- C8: `format_system_prompt` on a caller-supplied template raises
`ValueError` exactly when the `\x7bfunctions\x7d` placeholder is missing;
with the placeholder present it returns the template with the placeholder
replaced by the rendered tool block. -/
theorem format_system_prompt_placeholder (ca : CodeAgent) (prompt : String) :
    (strContains prompt "{functions}" = false →
      CodeAgent.format_system_prompt ca (some prompt) =
        .error "Prompt does not contain {functions} placeholder") ∧
    (strContains prompt "{functions}" = true →
      CodeAgent.format_system_prompt ca (some prompt) =
        .ok (pyReplace prompt "{functions}" (toolBlock ca.tool_functions))) := by
  constructor <;> intro h <;> simp [CodeAgent.format_system_prompt, h]

/-- C8 witness: a template without the placeholder is rejected; one with it
is formatted. -/
theorem format_system_prompt_placeholder_witness :
    CodeAgent.format_system_prompt sampleCodeAgent (some "You may use tools.") =
      .error "Prompt does not contain {functions} placeholder" ∧
    CodeAgent.format_system_prompt sampleCodeAgent (some "Tools: {functions}") =
      .ok (pyReplace "Tools: {functions}" "{functions}"
        (toolBlock sampleCodeAgent.tool_functions)) :=
  ⟨(format_system_prompt_placeholder sampleCodeAgent "You may use tools.").1 (by decide),
   (format_system_prompt_placeholder sampleCodeAgent "Tools: {functions}").2 (by decide)⟩

/-- C4: fenced-block structural validation in `CodeAgent.handle_response`:
a fenced region without the executable tag is a formatting error; zero
extracted blocks yield `None`; more than one block is rejected before any
compilation or execution, leaving the agent state unchanged in all three
cases and for every compiler. -/
theorem codeAgent_block_extraction (compile : String → CompileResult)
    (ca : CodeAgent) (response : String) :
    (strContains response "```" = true → strContains response "```python" = false →
      CodeAgent.handle_response compile ca response =
        (some "Error: code block must be formatted as ```python ... ```", ca)) ∧
    (strContains response "```" = false ∨
       (strContains response "```" = true ∧ strContains response "```python" = true ∧
        reFindall "```python" "```" response = []) →
      CodeAgent.handle_response compile ca response = (none, ca)) ∧
    (strContains response "```" = true → strContains response "```python" = true →
      2 ≤ (reFindall "```python" "```" response).length →
      CodeAgent.handle_response compile ca response =
        (some "Error: multiple code blocks found", ca)) := by
  refine ⟨fun h1 h2 => ?_, fun h => ?_, fun h1 h2 h3 => ?_⟩
  · simp [CodeAgent.handle_response, h1, h2]
  · rcases h with h | ⟨h1, h2, h3⟩
    · simp [CodeAgent.handle_response, h]
    · simp [CodeAgent.handle_response, h1, h2, h3]
  · rcases hl : reFindall "```python" "```" response with _ | ⟨b1, _ | ⟨b2, rest⟩⟩
    · rw [hl] at h3; simp at h3
    · rw [hl] at h3; simp at h3
    · simp [CodeAgent.handle_response, h1, h2, hl]

/-- C4 witness: the three structural outcomes at concrete responses. -/
theorem codeAgent_block_extraction_witness :
    CodeAgent.handle_response sampleCompile sampleCodeAgent "```\nprint(1)\n```" =
      (some "Error: code block must be formatted as ```python ... ```", sampleCodeAgent) ∧
    CodeAgent.handle_response sampleCompile sampleCodeAgent "```python" =
      (none, sampleCodeAgent) ∧
    CodeAgent.handle_response sampleCompile sampleCodeAgent
        "```python\na = f()\n``` then ```python\nprint(a)\n```" =
      (some "Error: multiple code blocks found", sampleCodeAgent) :=
  ⟨(codeAgent_block_extraction sampleCompile sampleCodeAgent "```\nprint(1)\n```").1
      (by decide) (by decide),
   (codeAgent_block_extraction sampleCompile sampleCodeAgent "```python").2.1
      (Or.inr ⟨by decide, by decide, by decide⟩),
   (codeAgent_block_extraction sampleCompile sampleCodeAgent
        "```python\na = f()\n``` then ```python\nprint(a)\n```").2.2
      (by decide) (by decide) (by decide)⟩

/-- C10: the single-to-double quote normalization applied to generic fenced
blocks corrupts apostrophes inside JSON string data: this fenced block is
valid JSON (it parses to a call descriptor for the registered function `f`
whose `note` parameter contains an apostrophe), yet `handle_response`
reports invalid JSON instead of dispatching the call. -/
theorem quote_normalization_rejects_apostrophe :
    jsonLoads apostropheBlock =
      some (.jobj [("name", .jstr "f"),
                   ("parameters", .jobj [("note",
                     .jstr ("it" ++ String.singleton (Char.ofNat 39) ++ "s"))])]) ∧
    ToolAgent.handle_response sampleToolAgent apostropheResponse =
      .ok (some "Error: invalid JSON format.") :=
  ⟨rfl, rfl⟩

/-- C1 counterexample: a response consisting of a lone fence marker makes
`ToolAgent.handle_response` subscript an empty `re.findall` result, so an
`IndexError` escapes to the caller instead of a normal return. -/
theorem toolAgent_raises_on_lone_fence :
    ToolAgent.handle_response sampleToolAgent "```" = .error .indexError := rfl

/-- The dispatch loop returns only the first failing element's error
string: accumulated results of earlier successful elements are dropped. -/
theorem processCalls_append_error (reg : List (String × PyFunc)) (pre : List JValue) :
    ∀ (acc : String) (fc : JValue) (post : List JValue) (e : String),
    (∀ x ∈ pre, ∃ d, elemOutcome reg x = .ok (.inr d)) →
    elemOutcome reg fc = .ok (.inl e) →
    processCalls reg (pre ++ fc :: post) acc = .ok (some e) := by
  induction pre with
  | nil =>
    intro acc fc post e _ hfc
    simp [processCalls, hfc]
  | cons x rest ih =>
    intro acc fc post e hpre hfc
    obtain ⟨d, hd⟩ := hpre x (by simp)
    simp only [List.cons_append, processCalls, hd]
    exact ih _ fc post e (fun y hy => hpre y (by simp [hy])) hfc

/-- C2: if extraction and parsing produce a batch in which every element
before `fc` succeeds and `fc` fails with error string `e`, the whole call
returns exactly `e`; the serialized results of the earlier elements are
discarded. -/
theorem toolAgent_batch_all_or_nothing (a : ToolAgent) (response s : String)
    (pre post : List JValue) (fc : JValue) (e : String)
    (hx : extractToolPayload response = .payload s)
    (hp : jsonLoads s = some (.jarr (pre ++ fc :: post)))
    (hpre : ∀ x ∈ pre, ∃ d, elemOutcome a.tool_functions x = .ok (.inr d))
    (hfc : elemOutcome a.tool_functions fc = .ok (.inl e)) :
    ToolAgent.handle_response a response = .ok (some e) := by
  simp only [ToolAgent.handle_response, hx, hp, asCallList]
  exact processCalls_append_error _ pre "" fc post e hpre hfc

/-- C2 witness: a two-element batch whose first call succeeds and whose
second names an unregistered function returns only the second element's
error. -/
theorem toolAgent_batch_all_or_nothing_witness :
    ToolAgent.handle_response sampleToolAgent batchResponse =
      .ok (some "Error: unknown function missing.") :=
  toolAgent_batch_all_or_nothing sampleToolAgent batchResponse
    "[\x7b\"name\":\"f\",\"parameters\":\x7b\x7d\x7d,\x7b\"name\":\"missing\",\"parameters\":\x7b\x7d\x7d]"
    [.jobj [("name", .jstr "f"), ("parameters", .jobj [])]] []
    (.jobj [("name", .jstr "missing"), ("parameters", .jobj [])])
    "Error: unknown function missing."
    rfl rfl
    (by
      intro x hx
      simp only [List.mem_singleton] at hx
      subst hx
      exact ⟨"\"ran\"", rfl⟩)
    rfl

/-- C5: a bare single-descriptor response calling `f` with `x = 1`, where
`f` returns the mapping `\x7b"y": 2\x7d`, yields exactly the serialized
result plus one trailing newline; if the registered function instead
returns a value `json.dumps` rejects, the serialization error is
returned. -/
theorem toolAgent_single_call_result (f g : PyFunc) (t : String)
    (hf : f.callKw [("x", .jint 1)] = .ok (.ofJson (.jobj [("y", .jint 2)])))
    (hg : g.callKw [("x", .jint 1)] = .ok (.nonSerializable t)) :
    ToolAgent.handle_response (mkToolAgent (.inr [("f", f)])) singleCallResponse =
      .ok (some "\x7b\"y\": 2\x7d\n") ∧
    ToolAgent.handle_response (mkToolAgent (.inr [("f", g)])) singleCallResponse =
      .ok (some "Error: function call did not return JSON serializable result.") := by
  have hout : ∀ (h : PyFunc),
      elemOutcome [("f", h)]
        (.jobj [("name", .jstr "f"), ("arguments", .jobj [("x", .jint 1)])]) =
      (match h.callKw [("x", .jint 1)] with
       | .error _ => .ok (.inl "Error: function call failed")
       | .ok result =>
         match pyDumps result with
         | none =>
           .ok (.inl "Error: function call did not return JSON serializable result.")
         | some s => .ok (.inr s)) :=
    fun h => rfl
  have hh : ∀ (h : PyFunc),
      ToolAgent.handle_response (mkToolAgent (.inr [("f", h)])) singleCallResponse =
        processCalls [("f", h)]
          [.jobj [("name", .jstr "f"), ("arguments", .jobj [("x", .jint 1)])]] "" :=
    fun h => rfl
  constructor
  · have he := hout f
    rw [hf] at he
    rw [hh f]
    simp only [processCalls, he]
    rfl
  · have he := hout g
    rw [hg] at he
    rw [hh g]
    simp only [processCalls, he]
    rfl

/-- C5 witness: the sample registry realizes both outcomes. -/
theorem toolAgent_single_call_result_witness :
    ToolAgent.handle_response (mkToolAgent (.inr [("f", sampleF)])) singleCallResponse =
      .ok (some "\x7b\"y\": 2\x7d\n") ∧
    ToolAgent.handle_response (mkToolAgent (.inr [("f", sampleG)])) singleCallResponse =
      .ok (some "Error: function call did not return JSON serializable result.") :=
  toolAgent_single_call_result sampleF sampleG "object" rfl rfl

/-- One-step unfolding of expression evaluation at a variable. -/
theorem evalExpr_var (g : List (String × GVal)) (loc : SLocals) (x : String) :
    evalExpr g loc (.var x) =
      (match lookupD loc.vars x with
       | some v => .ok v
       | none =>
         match lookupD g x with
         | some (.tool f) => .ok (.nonSerializable ("function " ++ f.name))
         | some _ => .ok (.nonSerializable "builtin")
         | none => .error (.nameError x)) := rfl

/-- One-step unfolding of expression evaluation at a zero-argument call. -/
theorem evalExpr_call_nil (g : List (String × GVal)) (loc : SLocals) (fname : String) :
    evalExpr g loc (.call fname []) =
      (match lookupD loc.vars fname with
       | some _ => .error (.typeError "object is not callable")
       | none =>
         match lookupD g fname with
         | some (.tool f) => f.callPos []
         | some _ => .error (.typeError "object is not callable")
         | none => .error (.nameError fname)) := rfl

/-- C9: `reset` empties the persistent local bindings while leaving the
sandbox globals and tool registry untouched; afterwards a variable bound
before the reset raises `NameError` when referenced, while registered
tools remain callable. -/
theorem reset_clears_session (ca : CodeAgent) :
    (CodeAgent.reset ca).sandbox_locals = emptySLocals ∧
    (CodeAgent.reset ca).sandbox_globals = ca.sandbox_globals ∧
    (CodeAgent.reset ca).tool_functions = ca.tool_functions ∧
    (∀ x v, lookupD ca.sandbox_locals.vars x = some v →
      lookupD ca.sandbox_globals x = none →
      execBlock (CodeAgent.reset ca).sandbox_globals [.printE (.var x)]
        (CodeAgent.reset ca).sandbox_locals = (emptySLocals, some (.nameError x))) ∧
    (∀ fname f v, lookupD ca.sandbox_globals fname = some (.tool f) →
      f.callPos [] = .ok v →
      execBlock (CodeAgent.reset ca).sandbox_globals [.assign "r" (.call fname [])]
        (CodeAgent.reset ca).sandbox_locals =
        ({ vars := [("r", v)], printCol := none }, none)) := by
  refine ⟨rfl, rfl, rfl, fun x v _ hg => ?_, fun fname f v hreg hcall => ?_⟩
  · have h1 : evalExpr ca.sandbox_globals emptySLocals (.var x) =
        .error (.nameError x) := by
      rw [evalExpr_var]
      simp [emptySLocals, lookupD, hg]
    simp [CodeAgent.reset, execBlock, execStmt, h1]
  · have h1 : evalExpr ca.sandbox_globals emptySLocals (.call fname []) = .ok v := by
      rw [evalExpr_call_nil]
      simp [emptySLocals, lookupD, hreg, hcall]
    simp [CodeAgent.reset, execBlock, execStmt, h1]
    exact ⟨rfl, rfl⟩

/-- C9 witness: in a session where turn 1 bound `v`, after reset the
locals are empty, referencing `v` raises a name error, and the registered
tool `f` is still callable. -/
theorem reset_clears_session_witness :
    (CodeAgent.reset sampleSession).sandbox_locals = emptySLocals ∧
    execBlock (CodeAgent.reset sampleSession).sandbox_globals [.printE (.var "v")]
      (CodeAgent.reset sampleSession).sandbox_locals =
      (emptySLocals, some (.nameError "v")) ∧
    execBlock (CodeAgent.reset sampleSession).sandbox_globals
        [.assign "r" (.call "f" [])]
      (CodeAgent.reset sampleSession).sandbox_locals =
      ({ vars := [("r", .ofJson (.jstr "ok"))], printCol := none }, none) :=
  ⟨(reset_clears_session sampleSession).1,
   (reset_clears_session sampleSession).2.2.2.1 "v" (.ofJson (.jint 3)) rfl rfl,
   (reset_clears_session sampleSession).2.2.2.2 "f" sampleF (.ofJson (.jstr "ok"))
     rfl rfl⟩

/-- C3: after a successful execution of the single extracted block, the
print-capture binding is the only channel consulted: absent binding yields
the no-print error; captured output that trims to empty yields the
empty-result error (and the binding is dropped); otherwise the trimmed
output is returned and the binding is dropped from the session locals. -/
theorem codeAgent_output_channel
    (compile : String → CompileResult) (ca : CodeAgent) (response src : String)
    (blk : List SStmt) (loc : SLocals)
    (hf : strContains response "```" = true)
    (hp : strContains response "```python" = true)
    (hx : reFindall "```python" "```" response = [src])
    (hc : (compile src).code = some blk)
    (he : execBlock ca.sandbox_globals blk ca.sandbox_locals = (loc, none)) :
    (loc.printCol = none →
      CodeAgent.handle_response compile ca response =
        (some "Error: No print statement executed in code block.",
         { ca with sandbox_locals := loc })) ∧
    (∀ txt, loc.printCol = some txt → pyStrip txt = "" →
      CodeAgent.handle_response compile ca response =
        (some "Error: result string is empty.",
         { ca with sandbox_locals := { loc with printCol := none } })) ∧
    (∀ txt, loc.printCol = some txt → pyStrip txt ≠ "" →
      CodeAgent.handle_response compile ca response =
        (some (pyStrip txt),
         { ca with sandbox_locals := { loc with printCol := none } })) := by
  have hmain : CodeAgent.handle_response compile ca response =
      (match loc.printCol with
       | some txt =>
         if (pyStrip txt).length > 0 then
           (some (pyStrip txt),
            { ca with sandbox_locals := { loc with printCol := none } })
         else
           (some "Error: result string is empty.",
            { ca with sandbox_locals := { loc with printCol := none } })
       | none =>
         (some "Error: No print statement executed in code block.",
          { ca with sandbox_locals := loc })) := by
    simp [CodeAgent.handle_response, hf, hp, hx, hc, he]
  refine ⟨fun h => ?_, fun txt h hstrip => ?_, fun txt h hne => ?_⟩
  · rw [hmain, h]
  · rw [hmain, h]
    simp [hstrip]
  · have hlen : 0 < (pyStrip txt).length :=
      Nat.pos_of_ne_zero (fun h0 => hne (String.ext (List.length_eq_zero.mp h0)))
    rw [hmain, h]
    simp [hlen]

/-- C3 witness: the sample compiler block `print(f())` prints `ok`, so the
handler returns the trimmed capture and drops the collector binding. -/
theorem codeAgent_output_channel_witness :
    CodeAgent.handle_response sampleCompile sampleCodeAgent
      "```python\nprint(f())\n```" =
      (some "ok", { sampleCodeAgent with
        sandbox_locals := { vars := [], printCol := none } }) :=
  (codeAgent_output_channel sampleCompile sampleCodeAgent
      "```python\nprint(f())\n```" "\nprint(f())\n"
      [SStmt.printE (.call "f" [])] { vars := [], printCol := some "ok\n" }
      (by decide) (by decide) (by decide) rfl rfl).2.2
    "ok\n" rfl (by decide)

/-- Inserting an absent key appends it at the end of the dict. -/
theorem lookupD_none_dictInsert {α : Type} (d : List (String × α)) (k : String)
    (v : α) (h : lookupD d k = none) : dictInsert d k v = d ++ [(k, v)] := by
  induction d with
  | nil => rfl
  | cons kv rest ih =>
    simp only [lookupD] at h
    by_cases hk : kv.1 = k
    · simp [hk] at h
    · simp only [dictInsert, if_neg hk, List.cons_append]
      rw [ih (by simpa [hk] using h)]

/-- Dict lookup distributes over append. -/
theorem lookupD_append {α : Type} (a b : List (String × α)) (k : String) :
    lookupD (a ++ b) k =
      (match lookupD a k with
       | some v => some v
       | none => lookupD b k) := by
  induction a with
  | nil => simp [lookupD]
  | cons kv rest ih =>
    by_cases hk : kv.1 = k <;> simp [lookupD, hk, ih]

/-- Folding dict insertion over pairs with fresh, pairwise-distinct keys
appends them in order. -/
theorem foldl_dictInsert_fresh {α : Type} (l : List (String × α)) :
    ∀ acc : List (String × α), (l.map Prod.fst).Nodup →
    (∀ k ∈ l.map Prod.fst, lookupD acc k = none) →
    l.foldl (fun d kv => dictInsert d kv.1 kv.2) acc = acc ++ l := by
  induction l with
  | nil => intro acc _ _; simp
  | cons kv rest ih =>
    intro acc hnd hdis
    have hhead : lookupD acc kv.1 = none := hdis kv.1 (by simp)
    have hnotmem : kv.1 ∉ rest.map Prod.fst := (List.nodup_cons.mp (by simpa using hnd)).1
    have htail : (rest.map Prod.fst).Nodup := (List.nodup_cons.mp (by simpa using hnd)).2
    simp only [List.foldl_cons]
    rw [lookupD_none_dictInsert acc kv.1 kv.2 hhead]
    rw [ih (acc ++ [(kv.1, kv.2)]) htail ?_]
    · simp
    · intro k hk
      rw [lookupD_append]
      rw [hdis k (by simp [hk])]
      have hne : kv.1 ≠ k := fun he => hnotmem (he ▸ hk)
      simp [lookupD, hne]

/-- A pair list with pairwise-distinct keys is its own Python dict. -/
theorem pyDict_nodup {α : Type} (l : List (String × α))
    (h : (l.map Prod.fst).Nodup) : pyDict l = l := by
  have := foldl_dictInsert_fresh l [] h (fun k _ => rfl)
  simpa [pyDict] using this

/-- C7: building an agent from an ordered function list and from the
equivalent name-keyed mapping (same functions under their declared names,
in the same order) produces identical structured JSON schemas and an
identical formatted system prompt (hence an identical pseudo-source stub
block). -/
theorem registry_list_dict_equiv (fs : List PyFunc)
    (h : (fs.map PyFunc.name).Nodup) :
    (mkToolAgent (.inl fs)).tools =
      (mkToolAgent (.inr (fs.map (fun f => (f.name, f))))).tools ∧
    CodeAgent.format_system_prompt (mkCodeAgent (.inl fs)) none =
      CodeAgent.format_system_prompt
        (mkCodeAgent (.inr (fs.map (fun f => (f.name, f))))) none := by
  have hkeys : ((fs.map (fun f => (f.name, f))).map Prod.fst).Nodup := by
    simpa [List.map_map, Function.comp] using h
  have hreg : registryOf (.inl fs) =
      registryOf (.inr (fs.map (fun f => (f.name, f)))) := by
    simp only [registryOf]
    exact pyDict_nodup _ hkeys
  constructor
  · simp [mkToolAgent, hreg]
  · simp [mkCodeAgent, CodeAgent.format_system_prompt, toolBlock, hreg]

/-- C7 witness: the two-tool registry built from a list and from the
equivalent mapping agree on schemas and prompt. -/
theorem registry_list_dict_equiv_witness :
    (mkToolAgent (.inl [sampleF, sampleH])).tools =
      (mkToolAgent (.inr [("f", sampleF), ("h", sampleH)])).tools ∧
    CodeAgent.format_system_prompt (mkCodeAgent (.inl [sampleF, sampleH])) none =
      CodeAgent.format_system_prompt
        (mkCodeAgent (.inr [("f", sampleF), ("h", sampleH)])) none :=
  registry_list_dict_equiv [sampleF, sampleH] (by decide)

/-- Prefixes extend along append. -/
theorem isPre_append (p q t : List Char) (h : isPre p q = true) :
    isPre p (q ++ t) = true := by
  induction p generalizing q with
  | nil => rfl
  | cons c cs ih =>
    cases q with
    | nil => simp [isPre] at h
    | cons d ds =>
      simp only [isPre, List.cons_append, Bool.and_eq_true] at h ⊢
      exact ⟨h.1, ih ds h.2⟩

/-- Appending a newline makes the last character a newline. -/
theorem append_newline_last (a : String) :
    (a ++ "\n").data.reverse.head? = some '\n' := by
  rw [String.data_append, List.reverse_append]
  simp

/-- Invoking a resolved function never raises: every failure of the
parameter/invocation/serialization stage is caught and converted to an
`"Error: "`-prefixed feedback string. -/
theorem invokeResolved_spec (func : PyFunc) (fields : List (String × JValue)) :
    (∃ e, invokeResolved func fields = .ok (.inl e) ∧
      strStartsWith e "Error: " = true) ∨
    (∃ d, invokeResolved func fields = .ok (.inr d)) := by
  simp only [invokeResolved]
  repeat' split
  all_goals first
    | exact .inl ⟨_, rfl, by decide⟩
    | exact .inr ⟨_, rfl⟩

/-- Processing a batch element that is a JSON object with a hashable name
value never raises: it produces either an `"Error: "`-prefixed feedback
string or a serialized result. -/
theorem elemOutcome_jobj_spec (reg : List (String × PyFunc))
    (fields : List (String × JValue))
    (hname : hashableName (.jobj fields) = true) :
    (∃ e, elemOutcome reg (.jobj fields) = .ok (.inl e) ∧
      strStartsWith e "Error: " = true) ∨
    (∃ d, elemOutcome reg (.jobj fields) = .ok (.inr d)) := by
  have hunk : ∀ s : String, strStartsWith
      ("Error: unknown function " ++ s ++ ".") "Error: " = true := by
    intro s
    have hbase : isPre "Error: ".data "Error: unknown function ".data = true := by
      decide
    simpa [strStartsWith, String.data_append, List.append_assoc] using
      isPre_append _ _ (s.data ++ ".".data) hbase
  simp only [elemOutcome]
  rcases hl : lookupD fields "name" with _ | nv
  · exact .inl ⟨_, rfl, by decide⟩
  · cases nv with
    | jnull => exact .inl ⟨_, rfl, by decide⟩
    | jarr xs => simp [hashableName, hl] at hname
    | jobj kvs => simp [hashableName, hl] at hname
    | jbool b => exact .inl ⟨_, rfl, hunk _⟩
    | jint n => exact .inl ⟨_, rfl, hunk _⟩
    | jstr s =>
      show (∃ e, (match resolveName reg (.jstr s) with
            | none => Except.ok (Sum.inl
                ("Error: unknown function " ++ jsonPyStr (.jstr s) ++ "."))
            | some func => invokeResolved func fields) = Except.ok (Sum.inl e) ∧
          strStartsWith e "Error: " = true) ∨
        (∃ d, (match resolveName reg (.jstr s) with
            | none => Except.ok (Sum.inl
                ("Error: unknown function " ++ jsonPyStr (.jstr s) ++ "."))
            | some func => invokeResolved func fields) = Except.ok (Sum.inr d))
      rcases h2 : resolveName reg (.jstr s) with _ | func
      · exact .inl ⟨_, rfl, hunk _⟩
      · exact invokeResolved_spec func fields

/-- The dispatch loop over a batch of JSON objects with hashable name
values always returns normally, and any feedback string is an `"Error: "`
diagnostic, the untouched accumulator, or newline-terminated serialized
output. -/
theorem processCalls_spec (reg : List (String × PyFunc)) (calls : List JValue) :
    ∀ acc, (∀ fc ∈ calls, isJObjB fc = true) →
    (∀ fc ∈ calls, hashableName fc = true) →
    ∃ r, processCalls reg calls acc = .ok r ∧
      ∀ s, r = some s → strStartsWith s "Error: " = true ∨ s = acc ∨
        s.data.reverse.head? = some '\n' := by
  induction calls with
  | nil =>
    intro acc _ _
    exact ⟨some acc, rfl, fun s hs => .inr (.inl (by injection hs with h; exact h.symm))⟩
  | cons fc rest ih =>
    intro acc hall hhash
    have hfc := hall fc (by simp)
    have hh := hhash fc (by simp)
    rcases fc with _ | _ | _ | _ | _ | fields <;> simp [isJObjB] at hfc
    rcases elemOutcome_jobj_spec reg fields hh with ⟨e, he, hpre⟩ | ⟨d, hd⟩
    · refine ⟨some e, by simp [processCalls, he], fun s hs => ?_⟩
      injection hs with h
      exact .inl (h ▸ hpre)
    · obtain ⟨r, hr, hspec⟩ := ih (acc ++ d ++ "\n")
        (fun x hx => hall x (by simp [hx])) (fun x hx => hhash x (by simp [hx]))
      refine ⟨r, by simp [processCalls, hd, hr], fun s hs => ?_⟩
      rcases hspec s hs with h | h | h
      · exact .inl h
      · subst h
        exact .inr (.inr (by simp [append_newline_last (acc ++ d)]))
      · exact .inr (.inr h)

/-- C1 (amended): `CodeAgent.handle_response` always returns normally.
`ToolAgent.handle_response` returns normally whenever (i) the extraction
stage finds a complete delimited region when its markers are present,
(ii) every element of the parsed call batch is a JSON object, and
(iii) every element's `name` value is hashable — otherwise an `IndexError`
(subscripting an empty `findall` result), an `AttributeError` (calling
`.get` on a non-dict element), or a `TypeError` (hashing a list or dict
name in `tool_functions.get`) escapes to the caller.  When it returns
feedback, the string is an `"Error: "`-prefixed diagnostic or (possibly
empty) newline-terminated serialized output. -/
theorem handle_response_fails_closed (a : ToolAgent) (response : String)
    (h1 : extractToolPayload response ≠ .raised)
    (h2 : batchAllObjects response = true)
    (h3 : batchNamesHashable response = true) :
    (∃ r, ToolAgent.handle_response a response = .ok r) ∧
    (∀ s, ToolAgent.handle_response a response = .ok (some s) →
      strStartsWith s "Error: " = true ∨ s = "" ∨
        s.data.reverse.head? = some '\n') ∧
    (∀ (compile : String → CompileResult) (ca : CodeAgent),
      ∃ fb ca2, CodeAgent.handle_response compile ca response = (fb, ca2)) := by
  have hmain : (∃ r, ToolAgent.handle_response a response = .ok r ∧
      ∀ s, r = some s → strStartsWith s "Error: " = true ∨ s = "" ∨
        s.data.reverse.head? = some '\n') := by
    cases hx : extractToolPayload response with
    | noPayload =>
      exact ⟨none, by simp [ToolAgent.handle_response, hx], by simp⟩
    | raised => exact absurd hx h1
    | payload s =>
      cases hp : jsonLoads s with
      | none =>
        exact ⟨some "Error: invalid JSON format.",
          by simp [ToolAgent.handle_response, hx, hp],
          fun t ht => by injection ht with h; exact .inl (h ▸ by decide)⟩
      | some v =>
        have hall : ∀ fc ∈ asCallList v, isJObjB fc = true := by
          have hb := h2
          simp only [batchAllObjects, hx, hp] at hb
          exact fun fc hfc => List.all_eq_true.mp hb fc hfc
        have hhash : ∀ fc ∈ asCallList v, hashableName fc = true := by
          have hb := h3
          simp only [batchNamesHashable, hx, hp] at hb
          exact fun fc hfc => List.all_eq_true.mp hb fc hfc
        obtain ⟨r, hr, hspec⟩ :=
          processCalls_spec a.tool_functions (asCallList v) "" hall hhash
        exact ⟨r, by simp [ToolAgent.handle_response, hx, hp, hr], hspec⟩
  obtain ⟨r, hr, hspec⟩ := hmain
  refine ⟨⟨r, hr⟩, fun s hs => ?_, fun compile ca => ⟨_, _, rfl⟩⟩
  have : r = some s := by rw [hr] at hs; injection hs
  exact hspec s this

/-- C1 witness: a real two-call batch satisfies all three side conditions
(complete delimiters, object elements, hashable string names), so the
dispatcher returns normally (and the sandbox handler always does). -/
theorem handle_response_fails_closed_witness :
    ((∃ r, ToolAgent.handle_response sampleToolAgent batchResponse = .ok r) ∧
     (∀ s, ToolAgent.handle_response sampleToolAgent batchResponse = .ok (some s) →
       strStartsWith s "Error: " = true ∨ s = "" ∨
         s.data.reverse.head? = some '\n') ∧
     (∀ (compile : String → CompileResult) (ca : CodeAgent),
       ∃ fb ca2, CodeAgent.handle_response compile ca batchResponse = (fb, ca2))) :=
  handle_response_fails_closed sampleToolAgent batchResponse
    (by decide) (by decide) (by decide)
